import Mathlib

/-!
# MultilingualSpeechDispatcherClient: a shallow embedding of `main.go` and `cli.go`

The program reads lines from standard input, asks the lingua detector for the
language spans of each line and drives one Speech Dispatcher session to speak
every span.  Its collaborators (go-speechd, lingua-go, bufio, the process
runtime) are not part of the repository, so the embedding makes every call to
them explicit:

* a run is described by its `Trace`, the chronological list of collaborator
  calls (`Call`) it has issued;
* the Speech Dispatcher side is an oracle `Speechd` that, given the calls
  issued so far and the call being made, answers with the error it returns
  (`none` is the nil error);
* the scanner over standard input is the list of outcomes of its successive
  `Scan()` calls (`Reader`);
* the lingua tables and the detector are the fields of a `Lingua` record.

Go strings are byte sequences.  Diagnostic logging (`log.Debugf`, `log.Info`,
`log.Warnf`) and the prompt printed by `fmt.Println` touch no collaborator state
and are left out; `log.Fatal` / `log.Fatalf` are kept, as they end the process.
-/

namespace SpeechClient

/-! ## Go values -/

/-- A Go string: an immutable sequence of bytes. -/
abbrev GoString := List UInt8

/-- The Go string denoted by a literal: its UTF-8 bytes. -/
def utf8 (s : String) : GoString := s.data.flatMap String.utf8EncodeChar

/-- A Go `error` value: either one handed back by a collaborator (speechd, the
scanner), or one built in this program by `fmt.Errorf`. -/
inductive GoError where
  | foreign (msg : GoString)
  | errorf (msg : GoString)
  deriving DecidableEq, Repr

/-- The method `Error()` of an error value, which is what the verb `%v` prints. -/
def GoError.Error : GoError → GoString
  | .foreign msg => msg
  | .errorf msg => msg

/-- The slice expression `s[lo:hi]` on a string whose bounds are in range. -/
def substring (s : GoString) (lo hi : Int) : GoString :=
  (s.drop lo.toNat).take (hi.toNat - lo.toNat)

/-- The bounds check of the slice expression `s[lo:hi]`. -/
def inRange (s : GoString) (lo hi : Int) : Prop :=
  0 ≤ lo ∧ lo ≤ hi ∧ hi ≤ (s.length : Int)

instance (s : GoString) (lo hi : Int) : Decidable (inRange s lo hi) := by
  unfold inRange; exact inferInstance

/-- The slice expression `s[lo:hi]`: `none` stands for the run-time panic
"slice bounds out of range". -/
def slice (s : GoString) (lo hi : Int) : Option GoString :=
  if inRange s lo hi then some (substring s lo hi) else none

/-- The function `strings.Join(elems, ",")`, with the separator byte as argument. -/
def Join (elems : List GoString) (sep : UInt8) : GoString :=
  match elems with
  | [] => []
  | [e] => e
  | e :: rest => e ++ sep :: Join rest sep

/-- The function `strings.Split(s, ",")` for a one-byte separator: the pieces of
`s` between the separators, so one piece more than there are separators. -/
def Split (s : GoString) (sep : UInt8) : List GoString :=
  match s with
  | [] => [[]]
  | c :: cs =>
    if c = sep then [] :: Split cs sep
    else match Split cs sep with
      | [] => [[c]]
      | w :: ws => (c :: w) :: ws

/-- The comma byte. -/
def comma : UInt8 := 44

/-! ## Collaborator calls -/

/-- A session handle `*speechd.SpeechdSession`; `attempt` is the index of the
loop iteration of `openSpeechClient` whose `Open` call produced it. -/
structure SpeechdSession where
  attempt : Nat
  deriving DecidableEq, Repr

/-- The calls this program makes to its collaborators. -/
inductive Call where
  | Open
  | Sleep (d : Int)
  | SetClientName (user client component : GoString)
  | SetOutputModule (name : GoString)
  | SetEventNotifications (val : Bool)
  | SetLanguage (tag : GoString)
  | Speak (text : GoString)
  | Wait
  | Close
  | Detect (text : GoString)
  deriving DecidableEq, Repr

/-- The calls issued so far, oldest first. -/
abbrev Trace := List Call

/-- The Speech Dispatcher side: the error answered to a call, given the calls
issued before it.  Only the calls whose error result the program reads
(`Open`, `SetClientName`, `SetOutputModule`, `SetEventNotifications`,
`SetLanguage`, `Speak`) are ever put to it. -/
abbrev Speechd := Trace → Call → Option GoError

/-- Number of `Open` calls in a trace. -/
def openCalls (t : Trace) : Nat := t.count Call.Open

/-- Number of `Close` calls in a trace. -/
def closeCalls (t : Trace) : Nat := t.count Call.Close

/-! ## `openSpeechClient` (main.go, lines 31-44) -/

/-- The error built on line 43:
`fmt.Errorf("failed to connect to Speech Dispatcher after %d attempts", retries)`. -/
def connectError (retries : Int) : GoError :=
  .errorf (utf8 "failed to connect to Speech Dispatcher after " ++ utf8 (toString retries)
    ++ utf8 " attempts")

/-- The loop `for i := range retries` of `openSpeechClient`, with `remaining`
iterations left and loop index `i`; the last line is the statement after the
loop. -/
def openLoop (B : Speechd) (retries delay : Int) :
    Nat → Nat → Trace → (Option SpeechdSession × Option GoError) × Trace
  | 0, _, h => ((none, some (connectError retries)), h)
  | remaining + 1, i, h =>
    match B h Call.Open with
    | none => ((some ⟨i⟩, none), h ++ [Call.Open])
    | some _ => openLoop B retries delay remaining (i + 1) (h ++ [Call.Open, Call.Sleep delay])

/-- The function `openSpeechClient(retries, delay)`: a range over an `int` runs
`retries` times, and not at all when `retries` is zero or negative. -/
def openSpeechClient (B : Speechd) (retries delay : Int) (h : Trace) :
    (Option SpeechdSession × Option GoError) × Trace :=
  openLoop B retries delay retries.toNat 0 h

/-! ## The lingua library and the scanner -/

/-- A value of the enumeration `lingua.Language`: an integer. -/
abbrev Language := Nat

/-- A `lingua.DetectionResult`: a byte range of the text and its language. -/
structure DetectionResult where
  StartIndex : Int
  EndIndex : Int
  Language : Language
  deriving DecidableEq, Repr

/-- A built `lingua.LanguageDetector`, seen through `DetectMultipleLanguagesOf`. -/
abbrev LanguageDetector := GoString → List DetectionResult

/-- A configured `lingua.LanguageDetectorBuilder`, seen through the languages it
retains. -/
abbrev DetectorBuilder := List Language

/-- What the program uses of lingua-go: the first value `Afrikaans` and the last
value `Unknown` of the enumeration, the name `String()` and the code
`IsoCode639_1().String()` of a language, the builder method `FromLanguages`,
which either returns a configured builder or panics (`none`), and the method
`Build` that makes the detector of a configured builder. -/
structure Lingua where
  Afrikaans : Language
  Unknown : Language
  name : Language → GoString
  IsoCode639_1 : Language → GoString
  FromLanguages : List Language → Option DetectorBuilder
  Build : DetectorBuilder → LanguageDetector

/-- One outcome of `scanner.Scan()`: a line is available through `Text()`, or the
read failed and `Err()` holds the failure.  A scan past the end of the list is
the end of the stream, with a nil `Err()`. -/
inductive ScanEvent where
  | token (text : GoString)
  | fail (err : GoError)
  deriving DecidableEq, Repr

/-- The scanner over the input, as the outcomes of its successive scans. -/
abbrev Reader := List ScanEvent

/-- How a function body ends: by returning a value or by a run-time panic. -/
inductive Outcome (α : Type) where
  | returned (value : α)
  | panicked
  deriving DecidableEq, Repr

/-- How the body of the loop over the spans of one line ends: it runs through all
spans, or leaves the function through `return err`, or panics. -/
inductive SpanLoop where
  | done
  | ret (err : GoError)
  | panic
  deriving DecidableEq, Repr

/-! ## `scanAndSpeak` (main.go, lines 68-99) -/

/-- The inner loop (lines 80-92) over the detection results of the line
`scanned_text`. -/
def speakSpans (L : Lingua) (B : Speechd) (scanned_text : GoString) :
    List DetectionResult → Trace → SpanLoop × Trace
  | [], h => (.done, h)
  | result :: rest, h =>
    match slice scanned_text result.StartIndex result.EndIndex with
    | none => (.panic, h)
    | some subset =>
      let iso_lang := L.IsoCode639_1 result.Language
      match B h (.SetLanguage iso_lang) with
      | some err => (.ret err, h ++ [.SetLanguage iso_lang])
      | none =>
        match B (h ++ [.SetLanguage iso_lang]) (.Speak subset) with
        | some err => (.ret err, h ++ [.SetLanguage iso_lang, .Speak subset])
        | none =>
          speakSpans L B scanned_text rest (h ++ [.SetLanguage iso_lang, .Speak subset, .Wait])

/-- The error built on line 96: `fmt.Errorf("error reading stdin: %v", err)`. -/
def readError (err : GoError) : GoError :=
  .errorf (utf8 "error reading stdin: " ++ err.Error)

/-- The loop `for scanner.Scan()` (lines 77-93) followed by the check of
`scanner.Err()` (lines 95-98). -/
def scanLoop (L : Lingua) (B : Speechd) (detector : LanguageDetector) :
    Reader → Trace → Outcome (Option GoError) × Trace
  | [], h => (.returned none, h)
  | .fail err :: _, h => (.returned (some (readError err)), h)
  | .token scanned_text :: rest, h =>
    match speakSpans L B scanned_text (detector scanned_text) (h ++ [.Detect scanned_text]) with
    | (.done, h1) => scanLoop L B detector rest h1
    | (.ret err, h1) => (.returned (some err), h1)
    | (.panic, h1) => (.panicked, h1)

/-- The function `scanAndSpeak(input, client, detector)`, run after the calls `h`.
All its session calls go to the one session of the run, which the calls of the
trace therefore do not name. -/
def scanAndSpeak (L : Lingua) (B : Speechd) (input : Reader) (detector : LanguageDetector)
    (h : Trace) : Outcome (Option GoError) × Trace :=
  match B h (.SetEventNotifications true) with
  | some err => (.returned (some err), h ++ [.SetEventNotifications true])
  | none => scanLoop L B detector input (h ++ [.SetEventNotifications true])

/-! ## `StringSlice` (cli.go) and `parseFlags` (main.go, lines 47-66) -/

/-- The flag value type `StringSlice`. -/
abbrev StringSlice := List GoString

/-- The method `String`: the values joined by commas. -/
def StringSlice.String (s : StringSlice) : GoString := Join s comma

/-- The method `Set`, called by the flag package once per occurrence of
`-use-languages`: the value is appended. -/
def StringSlice.Set (s : StringSlice) (value : GoString) : StringSlice × Option GoError :=
  (s ++ [value], none)

/-- The map `MapStringToEnumLanguage` (lines 21-27): for `i` from `Afrikaans` to
`Unknown`, the entry `m[i.String()] = i`, a later assignment replacing an
earlier one under the same key.  The map is seen through its lookup. -/
def MapStringToEnumLanguage (L : Lingua) : GoString → Option Language :=
  (List.range' L.Afrikaans (L.Unknown + 1 - L.Afrikaans)).foldl
    (fun m i => fun key => if key = L.name i then some i else m key) (fun _ => none)

/-- The function `parseFlags`, given the parsed command line: whether
`-list-languages` is set and the values passed to `-use-languages`, in order.
`Except.error code` stands for `os.Exit(code)`. -/
def parseFlags (listLanguages : Bool) (values : List GoString) :
    Except Int (Option StringSlice × Option GoError) :=
  let languages : StringSlice := values.foldl (fun s v => (StringSlice.Set s v).1) []
  if listLanguages then .error 0
  else if languages.length = 0 then
    .ok (none, some (.errorf (utf8 "must specify at least one language")))
  else .ok (some languages, none)

/-! ## `main` (main.go, lines 101-158) -/

/-- How the process ends: `main` returns (exit status 0), or `log.Fatal` /
`log.Fatalf` prints a message and calls `os.Exit(1)`, or `os.Exit(code)` is
called directly, or a panic that nothing recovers ends the process (exit
status 2).  A call of `os.Exit` ends the process at once: deferred functions do
not run. -/
inductive Ending where
  | returned
  | fatal (msg : GoString)
  | exit (code : Int)
  | panic
  deriving DecidableEq, Repr

/-- The exit status of the process. -/
def Ending.status : Ending → Int
  | .returned => 0
  | .fatal _ => 1
  | .exit code => code
  | .panic => 2

/-- A run of the process: the collaborator calls it made and how it ended. -/
structure Run where
  trace : Trace
  ending : Ending
  deriving DecidableEq, Repr

/-- The loop of lines 113-119: every name is looked up in the map and the
language found is appended; an unknown name ends the process through
`log.Fatalf("unknown language: %s", language)`, whose message is the error. -/
def resolveLanguages (L : Lingua) : List GoString → List Language → Except GoString (List Language)
  | [], linguaLanguages => .ok linguaLanguages
  | language :: rest, linguaLanguages =>
    match MapStringToEnumLanguage L language with
    | none => .error (utf8 "unknown language: " ++ language)
    | some linguaLanguage => resolveLanguages L rest (linguaLanguages ++ [linguaLanguage])

/-- Lines 105-122 of `main`: the flags are parsed and the languages validated.
The result is the list handed to the detector builder, or the way the process
ends before anything else happens. -/
def startup (L : Lingua) (listLanguages : Bool) (values : List GoString) :
    Except Ending (List Language) :=
  match parseFlags listLanguages values with
  | .error code => .error (.exit code)
  | .ok (_, some err) => .error (.fatal err.Error)
  | .ok (languages, none) =>
    match resolveLanguages L (Split (StringSlice.String (languages.getD [])) comma) [] with
    | .error msg => .error (.fatal msg)
    | .ok linguaLanguages =>
      if linguaLanguages.length < 2 then
        .error (.fatal (utf8 "at least two languages must be specified"))
      else .ok linguaLanguages

/-- The delay `1*time.Second` in nanoseconds. -/
def second : Int := 1000000000

/-- The end of `main` once `scanAndSpeak` is over (lines 155-158 and the two
deferred functions of lines 141-146), `h` being the calls made so far.

* `scanAndSpeak` returned an error: `log.Fatal(err)` exits the process, so no
  deferred function runs.
* `scanAndSpeak` returned nil: `main` returns and the deferred functions run in
  reverse order; `recover()` is nil in the second one, the first one calls
  `client.Close()`.
* `scanAndSpeak` panicked: the deferred handler recovers and calls
  `client.Close()`, then the first deferred `client.Close()` runs, and `main`
  returns. -/
def unwind (out : Outcome (Option GoError)) (h : Trace) : Run :=
  match out with
  | .returned (some err) => ⟨h, .fatal err.Error⟩
  | .returned none => ⟨h ++ [.Close], .returned⟩
  | .panicked => ⟨h ++ [.Close, .Close], .returned⟩

/-- Lines 139-157 of `main`, run after the calls `h`: the deferred functions and
the signal goroutine are registered, then `scanAndSpeak` runs.  With
`signal = some n`, a termination signal is delivered when the pipeline has
issued `n` calls, provided it has more to issue: the goroutine of lines 149-153
calls `client.Close()` and `os.Exit(0)`.  Otherwise the run ends as in `unwind`. -/
def guardedRun (L : Lingua) (B : Speechd) (input : Reader) (detector : LanguageDetector)
    (signal : Option Nat) (h : Trace) : Run :=
  let r := scanAndSpeak L B input detector h
  let issued := r.2.drop h.length
  match signal with
  | some n =>
    if n < issued.length then ⟨h ++ issued.take n ++ [.Close], .exit 0⟩
    else unwind r.1 r.2
  | none => unwind r.1 r.2

/-- The name passed three times to `SetClientName` on line 132. -/
def clientName : GoString := utf8 "bilingual-voice-test"

/-- The function `main`, on the parsed command line, the scanner outcomes of
standard input and the moment of a termination signal, if any.  On lines
124-126 the validated languages go to `FromLanguages`; a panic there happens
before any deferred function is registered, so nothing recovers it and the
process ends without any collaborator call. -/
def main (L : Lingua) (B : Speechd) (listLanguages : Bool) (values : List GoString)
    (input : Reader) (signal : Option Nat) : Run :=
  match startup L listLanguages values with
  | .error ending => ⟨[], ending⟩
  | .ok linguaLanguages =>
    match L.FromLanguages linguaLanguages with
    | none => ⟨[], .panic⟩
    | some builder =>
      let detector := L.Build builder
      match openSpeechClient B 5 (1 * second) [] with
      | ((_, some err), h) => ⟨h, .fatal err.Error⟩
      | ((_, none), h) =>
        match B h (.SetClientName clientName clientName clientName) with
        | some err => ⟨h ++ [.SetClientName clientName clientName clientName], .fatal err.Error⟩
        | none =>
          let h1 := h ++ [.SetClientName clientName clientName clientName]
          match B h1 (.SetOutputModule (utf8 "espeak-ng")) with
          | some err => ⟨h1 ++ [.SetOutputModule (utf8 "espeak-ng")], .fatal err.Error⟩
          | none =>
            guardedRun L B input detector signal (h1 ++ [.SetOutputModule (utf8 "espeak-ng")])

/-! ## Stubs used to run the program on concrete inputs -/

/-- A cut-down lingua: `Afrikaans`, `English`, `French`, `Unknown`; a builder
that, as the one of lingua-go, leaves `Unknown` out of the languages it is
given and panics when fewer than two remain; and a detector that ignores the
configured languages and tags the text up to the first space as French and the
text after it as English. -/
def linguaStub : Lingua where
  Afrikaans := 0
  Unknown := 3
  name := fun i =>
    match i with
    | 0 => utf8 "Afrikaans"
    | 1 => utf8 "English"
    | 2 => utf8 "French"
    | _ => utf8 "Unknown"
  IsoCode639_1 := fun i =>
    match i with
    | 0 => utf8 "af"
    | 1 => utf8 "en"
    | 2 => utf8 "fr"
    | _ => utf8 ""
  FromLanguages := fun languages =>
    if (languages.filter fun l => l ≠ 3).length < 2 then none
    else some (languages.filter fun l => l ≠ 3)
  Build := fun _ text =>
    match text.indexOf 32 with
    | 0 => []
    | n =>
      if n < text.length then [⟨0, n, 2⟩, ⟨n + 1, text.length, 1⟩]
      else [⟨0, n, 2⟩]

/-- A Speech Dispatcher on which every call succeeds. -/
def speechdOk : Speechd := fun _ _ => none

/-- A Speech Dispatcher whose `Open` fails with `err n` on its call number `n`
(from 0) while `n < k`, and on which every other call succeeds. -/
def speechdFailing (k : Nat) (err : Nat → GoError) : Speechd := fun h c =>
  match c with
  | .Open => if openCalls h < k then some (err (openCalls h)) else none
  | _ => none

/-- A Speech Dispatcher that is down: every `Open` fails, call number `n` with
`err n`. -/
def speechdDown (err : Nat → GoError) : Speechd := fun h c =>
  match c with
  | .Open => some (err (openCalls h))
  | _ => none

/-- A Speech Dispatcher that opens at once and rejects every `SetLanguage`. -/
def speechdRejecting : Speechd := fun _ c =>
  match c with
  | .SetLanguage _ => some (.foreign (utf8 "unsupported language"))
  | _ => none

/-! ## Vocabulary of the statements -/

/-- The calls of `j` failed attempts: each is an `Open` followed by the sleep. -/
def failedAttempts (delay : Int) (j : Nat) : Trace :=
  (List.replicate j [Call.Open, Call.Sleep delay]).flatten

/-- The calls `scanAndSpeak` makes for one detection result of the line `text`. -/
def spanCalls (L : Lingua) (text : GoString) (r : DetectionResult) : Trace :=
  [.SetLanguage (L.IsoCode639_1 r.Language), .Speak (substring text r.StartIndex r.EndIndex),
    .Wait]

/-- The calls `scanAndSpeak` makes for one line: the detector call, then the
calls of every span in the order of the detector. -/
def lineCalls (L : Lingua) (detector : LanguageDetector) (text : GoString) : Trace :=
  .Detect text :: (detector text).flatMap (spanCalls L text)

/-- The lines the scanner delivers: the tokens before its first read failure. -/
def linesRead : Reader → List GoString
  | [] => []
  | .fail _ :: _ => []
  | .token text :: rest => text :: linesRead rest

/-- The value of `scanner.Err()` once `Scan()` has returned false: the first read
failure, or nil at the end of the stream. -/
def scannerErr : Reader → Option GoError
  | [] => none
  | .fail err :: _ => some err
  | .token _ :: rest => scannerErr rest

/-- Every span the detector returns for `text` lies within `text`. -/
def validSpans (detector : LanguageDetector) (text : GoString) : Prop :=
  ∀ r ∈ detector text, inRange text r.StartIndex r.EndIndex

instance (detector : LanguageDetector) (text : GoString) :
    Decidable (validSpans detector text) := by
  unfold validSpans; exact inferInstance

/-- The calls whose error result `scanAndSpeak` reads. -/
def Call.checked : Call → Bool
  | .SetEventNotifications _ => true
  | .SetLanguage _ => true
  | .Speak _ => true
  | _ => false

/-- The calls `t`, issued after the calls `h`, stop at the first failure: a
checked call of `t` that the Speech Dispatcher answers with an error `e` is the
last call of `t`, and `P e` holds of that error. -/
def StopsAt (B : Speechd) (h t : Trace) (P : GoError → Prop) : Prop :=
  ∀ pre c post e, t = pre ++ c :: post → c.checked = true → B (h ++ pre) c = some e →
    post = [] ∧ P e

/-- The tags of the `SetLanguage` calls of a trace, in order. -/
def languageSwitches : Trace → List GoString
  | [] => []
  | .SetLanguage tag :: rest => tag :: languageSwitches rest
  | _ :: rest => languageSwitches rest

theorem failedAttempts_succ (delay : Int) (j : Nat) :
    failedAttempts delay (j + 1) = [Call.Open, Call.Sleep delay] ++ failedAttempts delay j := by
  simp [failedAttempts, List.replicate_succ]

theorem openCalls_append (a b : Trace) : openCalls (a ++ b) = openCalls a + openCalls b := by
  simp [openCalls]

theorem openCalls_failedAttempts (delay : Int) (j : Nat) :
    openCalls (failedAttempts delay j) = j := by
  induction j with
  | zero => simp [failedAttempts, openCalls]
  | succ j ih =>
    rw [failedAttempts_succ, openCalls_append, ih]
    simp [openCalls, List.count_cons]
    omega

/-- When every remaining attempt fails, the loop makes all of them and returns
the connection error. -/
theorem openLoop_all_fail (B : Speechd) (retries delay : Int) (n : Nat) :
    ∀ (i : Nat) (h : Trace),
      (∀ j, j < n → B (h ++ failedAttempts delay j) Call.Open ≠ none) →
      openLoop B retries delay n i h
        = ((none, some (connectError retries)), h ++ failedAttempts delay n) := by
  induction n with
  | zero => intro i h _; simp [openLoop, failedAttempts]
  | succ n ih =>
    intro i h hf
    have h0 : B h Call.Open ≠ none := by simpa [failedAttempts] using hf 0 (Nat.succ_pos n)
    obtain ⟨e, he⟩ := Option.ne_none_iff_exists'.mp h0
    rw [openLoop, he]
    simp only
    rw [ih (i + 1) (h ++ [Call.Open, Call.Sleep delay])]
    · rw [failedAttempts_succ, List.append_assoc]
    · intro j hj
      have := hf (j + 1) (by omega)
      rwa [failedAttempts_succ, ← List.append_assoc] at this

/-- When the first `m` remaining attempts fail and the next one succeeds, the
loop stops there and returns the session of that attempt. -/
theorem openLoop_succeeds (B : Speechd) (retries delay : Int) (m : Nat) :
    ∀ (n i : Nat) (h : Trace), m < n →
      (∀ j, j < m → B (h ++ failedAttempts delay j) Call.Open ≠ none) →
      B (h ++ failedAttempts delay m) Call.Open = none →
      openLoop B retries delay n i h
        = ((some ⟨i + m⟩, none), h ++ failedAttempts delay m ++ [Call.Open]) := by
  induction m with
  | zero =>
    intro n i h hn _ hs
    obtain ⟨n, rfl⟩ : ∃ n0, n = n0 + 1 := ⟨n - 1, by omega⟩
    have hs0 : B h Call.Open = none := by simpa [failedAttempts] using hs
    rw [openLoop, hs0]
    simp [failedAttempts]
  | succ m ih =>
    intro n i h hn hf hs
    obtain ⟨n, rfl⟩ : ∃ n0, n = n0 + 1 := ⟨n - 1, by omega⟩
    have h0 : B h Call.Open ≠ none := by simpa [failedAttempts] using hf 0 (Nat.succ_pos m)
    obtain ⟨e, he⟩ := Option.ne_none_iff_exists'.mp h0
    rw [openLoop, he]
    simp only
    rw [ih n (i + 1) (h ++ [Call.Open, Call.Sleep delay]) (by omega)]
    · rw [failedAttempts_succ]
      simp [Nat.add_assoc, Nat.add_comm 1 m]
    · intro j hj
      have := hf (j + 1) (by omega)
      rwa [failedAttempts_succ, ← List.append_assoc] at this
    · rwa [failedAttempts_succ, ← List.append_assoc] at hs

/-- C2. Bounded retry: against a Speech Dispatcher whose `Open` fails on its
first `k` calls and succeeds afterwards, `openSpeechClient(maxAttempts, delay)`
with `maxAttempts >= 1` calls `Open` exactly `min(k+1, maxAttempts)` times; when
`k < maxAttempts` it returns a session and a nil error; when `k >= maxAttempts`
it returns a nil session and a non-nil error after exactly `maxAttempts` calls. -/
theorem openSpeechClient_bounded_retry (B : Speechd) (maxAttempts delay : Int) (k : Nat)
    (hm : 1 ≤ maxAttempts) (hB : ∀ h, B h Call.Open = none ↔ k ≤ openCalls h) :
    openCalls (openSpeechClient B maxAttempts delay []).2 = min (k + 1) maxAttempts.toNat ∧
    ((k : Int) < maxAttempts →
      ∃ client, (openSpeechClient B maxAttempts delay []).1 = (some client, none)) ∧
    (maxAttempts ≤ (k : Int) →
      (openSpeechClient B maxAttempts delay []).1.1 = none ∧
      (openSpeechClient B maxAttempts delay []).1.2 ≠ none ∧
      openCalls (openSpeechClient B maxAttempts delay []).2 = maxAttempts.toNat) := by
  have hfail : ∀ j, j < k → B ([] ++ failedAttempts delay j) Call.Open ≠ none := by
    intro j hj hnone
    have := (hB _).mp hnone
    rw [openCalls_append, openCalls_failedAttempts] at this
    simp [openCalls] at this
    omega
  have hsucc : B ([] ++ failedAttempts delay k) Call.Open = none := by
    apply (hB _).mpr
    rw [openCalls_append, openCalls_failedAttempts]
    simp [openCalls]
  have hpos : 1 ≤ maxAttempts.toNat := by omega
  by_cases hk : k < maxAttempts.toNat
  · have hrun := openLoop_succeeds B maxAttempts delay k maxAttempts.toNat 0 [] hk hfail hsucc
    have hrun2 : openSpeechClient B maxAttempts delay []
        = ((some ⟨0 + k⟩, none), [] ++ failedAttempts delay k ++ [Call.Open]) := hrun
    rw [hrun2]
    refine ⟨?_, fun _ => ⟨_, rfl⟩, fun hle => ?_⟩
    · rw [openCalls_append, openCalls_append, openCalls_failedAttempts]
      simp [openCalls]
      omega
    · omega
  · have hrun := openLoop_all_fail B maxAttempts delay maxAttempts.toNat 0 []
      (fun j hj => hfail j (by omega))
    have hrun2 : openSpeechClient B maxAttempts delay []
        = ((none, some (connectError maxAttempts)), [] ++ failedAttempts delay maxAttempts.toNat) :=
      hrun
    rw [hrun2]
    have hc : openCalls ([] ++ failedAttempts delay maxAttempts.toNat) = maxAttempts.toNat := by
      rw [openCalls_append, openCalls_failedAttempts]; simp [openCalls]
    refine ⟨?_, fun hlt => ?_, fun _ => ⟨rfl, by simp, hc⟩⟩
    · rw [hc]; omega
    · omega

/-- Witness of C2: five attempts against a Speech Dispatcher that fails twice. -/
theorem openSpeechClient_bounded_retry_witness :
    openCalls (openSpeechClient (speechdFailing 2 fun _ => .foreign []) 5 second []).2
        = min (2 + 1) (5 : Int).toNat ∧
    (((2 : Nat) : Int) < 5 →
      ∃ client, (openSpeechClient (speechdFailing 2 fun _ => .foreign []) 5 second []).1
        = (some client, none)) ∧
    ((5 : Int) ≤ ((2 : Nat) : Int) →
      (openSpeechClient (speechdFailing 2 fun _ => .foreign []) 5 second []).1.1 = none ∧
      (openSpeechClient (speechdFailing 2 fun _ => .foreign []) 5 second []).1.2 ≠ none ∧
      openCalls (openSpeechClient (speechdFailing 2 fun _ => .foreign []) 5 second []).2
        = (5 : Int).toNat) :=
  openSpeechClient_bounded_retry (speechdFailing 2 fun _ => .foreign []) 5 second 2 (by decide)
    (fun h => by
      simp only [speechdFailing]
      constructor
      · intro hn
        by_contra hlt
        simp [Nat.lt_of_not_le hlt] at hn
      · intro hle
        simp [Nat.not_lt.mpr hle])

/-- C6, as stated, fails: two Speech Dispatchers that fail all five attempts, and
whose last failures differ, make `openSpeechClient` return one and the same
error, the one that carries the attempt count only. -/
theorem connectError_forgets_cause :
    speechdDown (fun _ => .foreign (utf8 "connection refused")) (failedAttempts second 4)
        Call.Open
      ≠ speechdDown (fun _ => .foreign (utf8 "no such socket")) (failedAttempts second 4)
        Call.Open ∧
    (openSpeechClient (speechdDown fun _ => .foreign (utf8 "connection refused")) 5 second []).1
      = (openSpeechClient (speechdDown fun _ => .foreign (utf8 "no such socket")) 5 second []).1 ∧
    (openSpeechClient (speechdDown fun _ => .foreign (utf8 "connection refused")) 5 second []).1
      = (none, some (.errorf (utf8 "failed to connect to Speech Dispatcher after 5 attempts"))) := by
  decide

/-- C6, amended. For every `maxAttempts >= 1`, when every `Open` attempt fails,
`openSpeechClient` returns a nil session and the error
`failed to connect to Speech Dispatcher after <maxAttempts> attempts`: the error
carries the attempt count and nothing of the failures returned by `Open`, so
any two Speech Dispatchers that always fail yield the same error. -/
theorem openSpeechClient_error_content (B B2 : Speechd) (maxAttempts delay : Int)
    (hm : 1 ≤ maxAttempts) (hB : ∀ h, B h Call.Open ≠ none) (hB2 : ∀ h, B2 h Call.Open ≠ none) :
    (openSpeechClient B maxAttempts delay []).1
      = (none, some (.errorf (utf8 "failed to connect to Speech Dispatcher after "
          ++ utf8 (toString maxAttempts) ++ utf8 " attempts"))) ∧
    (openSpeechClient B maxAttempts delay []).1 = (openSpeechClient B2 maxAttempts delay []).1 ∧
    openCalls (openSpeechClient B maxAttempts delay []).2 = maxAttempts.toNat ∧
    1 ≤ openCalls (openSpeechClient B maxAttempts delay []).2 := by
  have h1 : openSpeechClient B maxAttempts delay []
      = ((none, some (connectError maxAttempts)), [] ++ failedAttempts delay maxAttempts.toNat) :=
    openLoop_all_fail B maxAttempts delay maxAttempts.toNat 0 [] (fun j _ => hB _)
  have h2 : openSpeechClient B2 maxAttempts delay []
      = ((none, some (connectError maxAttempts)), [] ++ failedAttempts delay maxAttempts.toNat) :=
    openLoop_all_fail B2 maxAttempts delay maxAttempts.toNat 0 [] (fun j _ => hB2 _)
  have hc : openCalls ([] ++ failedAttempts delay maxAttempts.toNat) = maxAttempts.toNat := by
    rw [openCalls_append, openCalls_failedAttempts]; simp [openCalls]
  rw [h1, h2]
  refine ⟨rfl, rfl, hc, ?_⟩
  rw [hc]; omega

/-- Witness of the amended C6: five attempts against two Speech Dispatchers that
never open. -/
theorem openSpeechClient_error_content_witness :
    (openSpeechClient (speechdDown fun _ => .foreign (utf8 "connection refused")) 5 second []).1
      = (none, some (.errorf (utf8 "failed to connect to Speech Dispatcher after "
          ++ utf8 (toString (5 : Int)) ++ utf8 " attempts"))) ∧
    (openSpeechClient (speechdDown fun _ => .foreign (utf8 "connection refused")) 5 second []).1
      = (openSpeechClient (speechdDown fun n => .foreign [n.toUInt8]) 5 second []).1 ∧
    openCalls (openSpeechClient (speechdDown fun _ => .foreign (utf8 "connection refused")) 5
      second []).2 = (5 : Int).toNat ∧
    1 ≤ openCalls (openSpeechClient (speechdDown fun _ => .foreign (utf8 "connection refused")) 5
      second []).2 :=
  openSpeechClient_error_content (speechdDown fun _ => .foreign (utf8 "connection refused"))
    (speechdDown fun n => .foreign [n.toUInt8]) 5 second (by decide)
    (fun _ => by simp [speechdDown]) (fun _ => by simp [speechdDown])

/-! ## The pipeline when every call succeeds -/

theorem slice_of_inRange (s : GoString) (lo hi : Int) (hr : inRange s lo hi) :
    slice s lo hi = some (substring s lo hi) := by
  simp [slice, hr]

/-- On a Speech Dispatcher that never fails, the span loop runs through valid
spans and issues the three calls of each, in order. -/
theorem speakSpans_ok (L : Lingua) (B : Speechd) (text : GoString) (hB : ∀ h c, B h c = none) :
    ∀ (rs : List DetectionResult) (h : Trace),
      (∀ r ∈ rs, inRange text r.StartIndex r.EndIndex) →
      speakSpans L B text rs h = (.done, h ++ rs.flatMap (spanCalls L text)) := by
  intro rs
  induction rs with
  | nil => intro h _; simp [speakSpans]
  | cons r rs ih =>
    intro h hv
    have hr := hv r (List.mem_cons_self r rs)
    rw [speakSpans, slice_of_inRange _ _ _ hr]
    simp only [hB]
    rw [ih _ (fun x hx => hv x (List.mem_cons_of_mem r hx))]
    simp [spanCalls]

/-- On a Speech Dispatcher that never fails and a detector whose spans are valid,
the scanner loop processes every line read and returns what the scanner
reports. -/
theorem scanLoop_ok (L : Lingua) (B : Speechd) (detector : LanguageDetector)
    (hB : ∀ h c, B h c = none) :
    ∀ (input : Reader) (h : Trace),
      (∀ text ∈ linesRead input, validSpans detector text) →
      scanLoop L B detector input h
        = (.returned ((scannerErr input).map readError),
            h ++ (linesRead input).flatMap (lineCalls L detector)) := by
  intro input
  induction input with
  | nil => intro h _; simp [scanLoop, scannerErr, linesRead]
  | cons ev rest ih =>
    intro h hv
    cases ev with
    | fail err => simp [scanLoop, scannerErr, linesRead]
    | token text =>
      have hv1 : validSpans detector text := hv text (by simp [linesRead])
      rw [scanLoop, speakSpans_ok L B text hB _ _ hv1]
      simp only
      rw [ih _ (fun t ht => hv t (by simp [linesRead, ht]))]
      simp [scannerErr, linesRead, lineCalls]

theorem scanAndSpeak_ok (L : Lingua) (B : Speechd) (detector : LanguageDetector)
    (hB : ∀ h c, B h c = none) (input : Reader) (h : Trace)
    (hv : ∀ text ∈ linesRead input, validSpans detector text) :
    scanAndSpeak L B input detector h
      = (.returned ((scannerErr input).map readError),
          h ++ Call.SetEventNotifications true
            :: (linesRead input).flatMap (lineCalls L detector)) := by
  rw [scanAndSpeak, hB]
  simp only
  rw [scanLoop_ok L B detector hB input _ hv]
  simp

theorem languageSwitches_append (a b : Trace) :
    languageSwitches (a ++ b) = languageSwitches a ++ languageSwitches b := by
  induction a with
  | nil => rfl
  | cons c a ih => cases c <;> simp [languageSwitches, ih]

theorem languageSwitches_spans (L : Lingua) (text : GoString) (rs : List DetectionResult) :
    languageSwitches (rs.flatMap (spanCalls L text))
      = rs.map fun r => L.IsoCode639_1 r.Language := by
  induction rs with
  | nil => rfl
  | cons r rs ih =>
    rw [List.flatMap_cons, languageSwitches_append, ih]
    simp [spanCalls, languageSwitches]

theorem languageSwitches_lines (L : Lingua) (detector : LanguageDetector) (lines : List GoString) :
    languageSwitches (lines.flatMap (lineCalls L detector))
      = lines.flatMap fun text => (detector text).map fun r => L.IsoCode639_1 r.Language := by
  induction lines with
  | nil => rfl
  | cons text lines ih =>
    rw [List.flatMap_cons, languageSwitches_append, ih, List.flatMap_cons]
    simp [lineCalls, languageSwitches, languageSwitches_spans]

/-- C3. Pipeline call order: when every session call succeeds and the spans the
detector returns lie within their line, `scanAndSpeak` enables event
notifications and then, for every line read, calls the detector and issues for
its spans, in the order of the detector, `SetLanguage(tag)`, `Speak(substring)`,
`Wait`, one span after the other: no `Speak` comes before the `Wait` of the
previous span.  On the one-line input this is the claimed trace. -/
theorem scanAndSpeak_call_order (L : Lingua) (B : Speechd) (detector : LanguageDetector)
    (input : Reader) (line : GoString) (h0 : Trace)
    (hB : ∀ h c, B h c = none)
    (hv : ∀ text ∈ linesRead input, validSpans detector text)
    (hl : validSpans detector line) :
    (scanAndSpeak L B input detector h0).2
      = h0 ++ Call.SetEventNotifications true
          :: (linesRead input).flatMap
              (fun text => Call.Detect text :: (detector text).flatMap fun r =>
                [Call.SetLanguage (L.IsoCode639_1 r.Language),
                  Call.Speak (substring text r.StartIndex r.EndIndex), Call.Wait]) ∧
    (scanAndSpeak L B [.token line] detector h0).2
      = h0 ++ [Call.SetEventNotifications true, Call.Detect line]
          ++ (detector line).flatMap fun r =>
                [Call.SetLanguage (L.IsoCode639_1 r.Language),
                  Call.Speak (substring line r.StartIndex r.EndIndex), Call.Wait] := by
  constructor
  · rw [scanAndSpeak_ok L B detector hB input h0 hv]
    rfl
  · rw [scanAndSpeak_ok L B detector hB [.token line] h0
      (fun t ht => by
        have : t = line := by simpa [linesRead] using ht
        rw [this]; exact hl)]
    simp [linesRead, lineCalls, spanCalls]
    rfl

/-- Witness of C3: the line `Bonjour world` with the spans [0,7) French and
[8,13) English. -/
theorem scanAndSpeak_call_order_witness :
    linguaStub.Build [2, 1] (utf8 "Bonjour world") = [⟨0, 7, 2⟩, ⟨8, 13, 1⟩] ∧
    (scanAndSpeak linguaStub speechdOk [.token (utf8 "Bonjour world")] (linguaStub.Build [2, 1])
        []).2
      = [Call.SetEventNotifications true, Call.Detect (utf8 "Bonjour world"),
          Call.SetLanguage (utf8 "fr"), Call.Speak (utf8 "Bonjour"), Call.Wait,
          Call.SetLanguage (utf8 "en"), Call.Speak (utf8 "world"), Call.Wait] :=
  ⟨by decide,
    (scanAndSpeak_call_order linguaStub speechdOk (linguaStub.Build [2, 1])
      [.token (utf8 "Bonjour world")] (utf8 "Bonjour world") [] (fun _ _ => rfl)
      (by decide) (by decide)).2.trans (by decide)⟩

/-- C4, as stated, fails: on the line `one two`, whose two spans [0,3) and [4,7)
are both tagged English, `scanAndSpeak` issues `SetLanguage(en)` twice, once
per span. -/
theorem setLanguage_repeated_for_same_tag :
    (scanAndSpeak linguaStub speechdOk [.token (utf8 "one two")]
        (fun _ => [⟨0, 3, 1⟩, ⟨4, 7, 1⟩]) []).2
      = [Call.SetEventNotifications true, Call.Detect (utf8 "one two"),
          Call.SetLanguage (utf8 "en"), Call.Speak (utf8 "one"), Call.Wait,
          Call.SetLanguage (utf8 "en"), Call.Speak (utf8 "two"), Call.Wait] ∧
    languageSwitches (scanAndSpeak linguaStub speechdOk [.token (utf8 "one two")]
        (fun _ => [⟨0, 3, 1⟩, ⟨4, 7, 1⟩]) []).2 = [utf8 "en", utf8 "en"] := by
  decide

/-- C4, amended. When every session call succeeds and the spans lie within
their lines, `scanAndSpeak` issues `SetLanguage` once for every span, whatever
the tag of the span before it: the tags of its `SetLanguage` calls are the tags
of the spans of the lines read, in order and with repetitions; and the
`SetLanguage` of a span comes right before the `Speak` of that span. -/
theorem setLanguage_once_per_span (L : Lingua) (B : Speechd) (detector : LanguageDetector)
    (input : Reader) (hB : ∀ h c, B h c = none)
    (hv : ∀ text ∈ linesRead input, validSpans detector text) :
    languageSwitches (scanAndSpeak L B input detector []).2
      = (linesRead input).flatMap (fun text =>
          (detector text).map fun r => L.IsoCode639_1 r.Language) ∧
    (scanAndSpeak L B input detector []).2
      = Call.SetEventNotifications true
          :: (linesRead input).flatMap
              (fun text => Call.Detect text :: (detector text).flatMap fun r =>
                [Call.SetLanguage (L.IsoCode639_1 r.Language),
                  Call.Speak (substring text r.StartIndex r.EndIndex), Call.Wait]) := by
  rw [scanAndSpeak_ok L B detector hB input [] hv]
  refine ⟨?_, rfl⟩
  simp [languageSwitches, languageSwitches_lines]

/-- Witness of the amended C4: two lines, the second with two English spans. -/
theorem setLanguage_once_per_span_witness :
    languageSwitches (scanAndSpeak linguaStub speechdOk
        [.token (utf8 "Bonjour world"), .token (utf8 "one two")]
        (fun text => if text = utf8 "one two" then [⟨0, 3, 1⟩, ⟨4, 7, 1⟩]
          else linguaStub.Build [] text) []).2
      = [utf8 "fr", utf8 "en", utf8 "en", utf8 "en"] :=
  (setLanguage_once_per_span linguaStub speechdOk
    (fun text => if text = utf8 "one two" then [⟨0, 3, 1⟩, ⟨4, 7, 1⟩]
      else linguaStub.Build [] text)
    [.token (utf8 "Bonjour world"), .token (utf8 "one two")] (fun _ _ => rfl)
    (by decide)).1.trans (by decide)

/-! ## The end of the input -/

theorem scanLoop_after_failure (L : Lingua) (B : Speechd) (detector : LanguageDetector)
    (err : GoError) (later : Reader) :
    ∀ (earlier : Reader) (h : Trace),
      scanLoop L B detector (earlier ++ .fail err :: later) h
        = scanLoop L B detector (earlier ++ [.fail err]) h := by
  intro earlier
  induction earlier with
  | nil => intro h; simp [scanLoop]
  | cons ev rest ih =>
    intro h
    cases ev with
    | fail e => simp [scanLoop]
    | token text =>
      simp only [List.cons_append, scanLoop]
      split <;> simp [ih]

theorem scannerErr_ne_none_iff (input : Reader) :
    scannerErr input ≠ none ↔ ∃ err, ScanEvent.fail err ∈ input := by
  induction input with
  | nil => simp [scannerErr]
  | cons ev rest ih =>
    cases ev with
    | fail e => simp [scannerErr]
    | token text => simp [scannerErr, ih]

/-- C10. Termination on input end: when every session call succeeds (and the
spans lie within their lines), `scanAndSpeak` returns, and it returns a non-nil
error if and only if the scanner stopped on a read failure; at the end of the
stream without a read failure it returns nil; and what follows a read failure
in the input is never processed. -/
theorem scanAndSpeak_input_end (L : Lingua) (B : Speechd) (detector : LanguageDetector)
    (input : Reader) (h0 : Trace) (hB : ∀ h c, B h c = none)
    (hv : ∀ text ∈ linesRead input, validSpans detector text) :
    (∃ result, (scanAndSpeak L B input detector h0).1 = .returned result ∧
      (result ≠ none ↔ ∃ err, ScanEvent.fail err ∈ input) ∧
      (result ≠ none ↔ scannerErr input ≠ none)) ∧
    (scannerErr input = none → (scanAndSpeak L B input detector h0).1 = .returned none) ∧
    (∀ err, scannerErr input = some err →
      (scanAndSpeak L B input detector h0).1 = .returned (some (readError err))) ∧
    (∀ earlier err later, input = earlier ++ .fail err :: later →
      scanAndSpeak L B input detector h0
        = scanAndSpeak L B (earlier ++ [.fail err]) detector h0) := by
  have hrun := scanAndSpeak_ok L B detector hB input h0 hv
  refine ⟨⟨(scannerErr input).map readError, by rw [hrun], ?_, ?_⟩, ?_, ?_, ?_⟩
  · rw [← scannerErr_ne_none_iff]
    cases scannerErr input <;> simp
  · cases scannerErr input <;> simp
  · intro hn; rw [hrun, hn]; rfl
  · intro err he; rw [hrun, he]; rfl
  · intro earlier err later hin
    subst hin
    simp only [scanAndSpeak]
    split
    · rfl
    · exact scanLoop_after_failure L B detector err later earlier _

/-- Witness of C10: a line, a read failure, and a line that is never read. -/
theorem scanAndSpeak_input_end_witness :
    (∃ result, (scanAndSpeak linguaStub speechdOk
        [.token (utf8 "Bonjour world"), .fail (.foreign (utf8 "EIO")), .token (utf8 "late")]
        (linguaStub.Build []) []).1 = .returned result ∧
      (result ≠ none ↔ ∃ err, ScanEvent.fail err ∈
        [ScanEvent.token (utf8 "Bonjour world"), .fail (.foreign (utf8 "EIO")),
          .token (utf8 "late")]) ∧
      (result ≠ none ↔ scannerErr
        [.token (utf8 "Bonjour world"), .fail (.foreign (utf8 "EIO")), .token (utf8 "late")]
          ≠ none)) ∧
    (scanAndSpeak linguaStub speechdOk
        [.token (utf8 "Bonjour world"), .fail (.foreign (utf8 "EIO")), .token (utf8 "late")]
        (linguaStub.Build []) []).1
      = .returned (some (.errorf (utf8 "error reading stdin: EIO"))) :=
  ⟨(scanAndSpeak_input_end linguaStub speechdOk (linguaStub.Build [])
      [.token (utf8 "Bonjour world"), .fail (.foreign (utf8 "EIO")), .token (utf8 "late")] []
      (fun _ _ => rfl) (by decide)).1,
    by decide⟩

/-! ## The pipeline stops at the first failure -/

theorem stopsAt_nil (B : Speechd) (h : Trace) (P : GoError → Prop) : StopsAt B h [] P := by
  intro pre c post e heq
  simp at heq

theorem stopsAt_cons_iff (B : Speechd) (h : Trace) (c : Call) (t : Trace) (P : GoError → Prop) :
    StopsAt B h (c :: t) P ↔
      (∀ e, c.checked = true → B h c = some e → t = [] ∧ P e) ∧ StopsAt B (h ++ [c]) t P := by
  constructor
  · intro hs
    refine ⟨fun e hc he => hs [] c t e rfl hc (by simpa using he), ?_⟩
    intro pre c2 post e heq hc he
    refine hs (c :: pre) c2 post e (by simp [heq]) hc ?_
    simpa [List.append_assoc] using he
  · rintro ⟨h1, h2⟩ pre c2 post e heq hc he
    cases pre with
    | nil =>
      simp only [List.nil_append, List.cons.injEq] at heq
      obtain ⟨rfl, rfl⟩ := heq
      exact h1 e hc (by simpa using he)
    | cons x pre =>
      simp only [List.cons_append, List.cons.injEq] at heq
      obtain ⟨rfl, rfl⟩ := heq
      exact h2 pre c2 post e rfl hc (by simpa [List.append_assoc] using he)

theorem stopsAt_mono (B : Speechd) (h t : Trace) (P Q : GoError → Prop)
    (hPQ : ∀ e, P e → Q e) (hs : StopsAt B h t P) : StopsAt B h t Q := by
  intro pre c post e heq hc he
  exact ⟨(hs pre c post e heq hc he).1, hPQ e (hs pre c post e heq hc he).2⟩

theorem stopsAt_append (B : Speechd) (P : GoError → Prop) (t2 : Trace) :
    ∀ (t1 h : Trace), StopsAt B h t1 (fun _ => False) → StopsAt B (h ++ t1) t2 P →
      StopsAt B h (t1 ++ t2) P := by
  intro t1
  induction t1 with
  | nil => intro h _ h2; simpa using h2
  | cons c t1 ih =>
    intro h h1 h2
    rw [stopsAt_cons_iff] at h1
    rw [List.cons_append, stopsAt_cons_iff]
    refine ⟨fun e hc he => (h1.1 e hc he).2.elim, ih (h ++ [c]) h1.2 ?_⟩
    simpa [List.append_assoc] using h2

/-- The span loop extends the trace, and its calls stop at the first failure,
which is the error it returns. -/
theorem speakSpans_stops (L : Lingua) (B : Speechd) (text : GoString) :
    ∀ (rs : List DetectionResult) (h : Trace),
      ∃ t, (speakSpans L B text rs h).2 = h ++ t ∧
        StopsAt B h t (fun e => (speakSpans L B text rs h).1 = .ret e) := by
  intro rs
  induction rs with
  | nil => intro h; exact ⟨[], by simp [speakSpans], stopsAt_nil _ _ _⟩
  | cons r rs ih =>
    intro h
    rw [speakSpans]
    cases hsl : slice text r.StartIndex r.EndIndex with
    | none => exact ⟨[], by simp, stopsAt_nil _ _ _⟩
    | some subset =>
      simp only
      cases h1 : B h (.SetLanguage (L.IsoCode639_1 r.Language)) with
      | some err =>
        refine ⟨[.SetLanguage (L.IsoCode639_1 r.Language)], rfl, ?_⟩
        rw [stopsAt_cons_iff]
        refine ⟨fun e _ he => ⟨rfl, ?_⟩, stopsAt_nil _ _ _⟩
        rw [h1] at he
        simp only [Option.some.injEq] at he
        simp [he]
      | none =>
        simp only
        cases h2 : B (h ++ [.SetLanguage (L.IsoCode639_1 r.Language)]) (.Speak subset) with
        | some err =>
          refine ⟨[.SetLanguage (L.IsoCode639_1 r.Language), .Speak subset], rfl, ?_⟩
          rw [stopsAt_cons_iff]
          refine ⟨fun e _ he => ?_, ?_⟩
          · rw [h1] at he; simp at he
          · rw [stopsAt_cons_iff]
            refine ⟨fun e _ he => ⟨rfl, ?_⟩, stopsAt_nil _ _ _⟩
            rw [h2] at he
            simp only [Option.some.injEq] at he
            simp [he]
        | none =>
          simp only
          obtain ⟨t, ht, hst⟩ :=
            ih (h ++ [.SetLanguage (L.IsoCode639_1 r.Language), .Speak subset, .Wait])
          refine ⟨[.SetLanguage (L.IsoCode639_1 r.Language), .Speak subset, .Wait] ++ t,
            by rw [ht, List.append_assoc], ?_⟩
          simp only [List.cons_append, List.nil_append]
          rw [stopsAt_cons_iff]
          refine ⟨fun e _ he => ?_, ?_⟩
          · rw [h1] at he; simp at he
          · rw [stopsAt_cons_iff]
            refine ⟨fun e _ he => ?_, ?_⟩
            · rw [h2] at he; simp at he
            · rw [stopsAt_cons_iff]
              refine ⟨fun e hc _ => ?_, ?_⟩
              · simp [Call.checked] at hc
              · simpa [List.append_assoc] using hst

/-- The scanner loop extends the trace, and its calls stop at the first failure,
which is the error it returns. -/
theorem scanLoop_stops (L : Lingua) (B : Speechd) (detector : LanguageDetector) :
    ∀ (input : Reader) (h : Trace),
      ∃ t, (scanLoop L B detector input h).2 = h ++ t ∧
        StopsAt B h t (fun e => (scanLoop L B detector input h).1 = .returned (some e)) := by
  intro input
  induction input with
  | nil => intro h; exact ⟨[], by simp [scanLoop], stopsAt_nil _ _ _⟩
  | cons ev rest ih =>
    intro h
    cases ev with
    | fail err => exact ⟨[], by simp [scanLoop], stopsAt_nil _ _ _⟩
    | token text =>
      obtain ⟨t1, ht1, hs1⟩ := speakSpans_stops L B text (detector text) (h ++ [.Detect text])
      rw [scanLoop]
      cases hfl : speakSpans L B text (detector text) (h ++ [.Detect text]) with
      | mk fl h1 =>
        rw [hfl] at ht1 hs1
        simp only at ht1 hs1
        subst ht1
        cases fl with
        | done =>
          simp only
          obtain ⟨t2, ht2, hs2⟩ := ih (h ++ [.Detect text] ++ t1)
          refine ⟨.Detect text :: (t1 ++ t2), by rw [ht2]; simp, ?_⟩
          rw [stopsAt_cons_iff]
          refine ⟨fun e hc _ => by simp [Call.checked] at hc, ?_⟩
          apply stopsAt_append
          · exact stopsAt_mono _ _ _ _ _ (fun e he => by simp at he) hs1
          · exact hs2
        | ret err =>
          simp only
          refine ⟨.Detect text :: t1, by simp, ?_⟩
          rw [stopsAt_cons_iff]
          refine ⟨fun e hc _ => by simp [Call.checked] at hc, ?_⟩
          exact stopsAt_mono _ _ _ _ _ (fun e he => by simp at he; simp [he]) hs1
        | panic =>
          simp only
          refine ⟨.Detect text :: t1, by simp, ?_⟩
          rw [stopsAt_cons_iff]
          refine ⟨fun e hc _ => by simp [Call.checked] at hc, ?_⟩
          exact stopsAt_mono _ _ _ _ _ (fun e he => by simp at he) hs1

/-- The function `scanAndSpeak` extends the trace, and its calls stop at the
first failure, which is the error it returns. -/
theorem scanAndSpeak_stops (L : Lingua) (B : Speechd) (detector : LanguageDetector)
    (input : Reader) (h : Trace) :
    ∃ t, (scanAndSpeak L B input detector h).2 = h ++ t ∧
      StopsAt B h t (fun e => (scanAndSpeak L B input detector h).1 = .returned (some e)) := by
  rw [scanAndSpeak]
  cases h1 : B h (.SetEventNotifications true) with
  | some err =>
    refine ⟨[.SetEventNotifications true], rfl, ?_⟩
    rw [stopsAt_cons_iff]
    refine ⟨fun e _ he => ⟨rfl, ?_⟩, stopsAt_nil _ _ _⟩
    rw [h1] at he
    simp only [Option.some.injEq] at he
    simp [he]
  | none =>
    simp only
    obtain ⟨t, ht, hst⟩ := scanLoop_stops L B detector input (h ++ [.SetEventNotifications true])
    refine ⟨.SetEventNotifications true :: t, by rw [ht]; simp, ?_⟩
    rw [stopsAt_cons_iff]
    exact ⟨fun e _ he => by rw [h1] at he; simp at he, hst⟩

/-- C5. Stop on first backend failure: whatever the input, the detector and the
Speech Dispatcher, if a `SetEventNotifications`, `SetLanguage` or `Speak` call
issued by `scanAndSpeak` is answered with an error, then that call is the last
call of the run (no later call, for this span, later spans or later lines) and
`scanAndSpeak` returns that very error. -/
theorem scanAndSpeak_stops_on_first_error (L : Lingua) (B : Speechd)
    (detector : LanguageDetector) (input : Reader) (h0 pre post : Trace) (c : Call)
    (err : GoError)
    (hrun : (scanAndSpeak L B input detector h0).2 = h0 ++ pre ++ c :: post)
    (hc : c.checked = true)
    (herr : B (h0 ++ pre) c = some err) :
    post = [] ∧ (scanAndSpeak L B input detector h0).1 = .returned (some err) := by
  obtain ⟨t, ht, hst⟩ := scanAndSpeak_stops L B detector input h0
  rw [ht, List.append_assoc] at hrun
  exact hst pre c post err (List.append_cancel_left hrun) hc herr

/-- Witness of C5: the Speech Dispatcher rejects the first `SetLanguage` of a
two-line input; nothing is spoken and the rejection is returned. -/
theorem scanAndSpeak_stops_on_first_error_witness :
    (scanAndSpeak linguaStub speechdRejecting
        [.token (utf8 "Bonjour world"), .token (utf8 "encore")] (linguaStub.Build []) []).2
      = [] ++ [Call.SetEventNotifications true, Call.Detect (utf8 "Bonjour world")]
          ++ Call.SetLanguage (utf8 "fr") :: [] ∧
    (scanAndSpeak linguaStub speechdRejecting
        [.token (utf8 "Bonjour world"), .token (utf8 "encore")] (linguaStub.Build []) []).1
      = .returned (some (.foreign (utf8 "unsupported language"))) :=
  ⟨by decide,
    (scanAndSpeak_stops_on_first_error linguaStub speechdRejecting (linguaStub.Build [])
      [.token (utf8 "Bonjour world"), .token (utf8 "encore")] []
      [Call.SetEventNotifications true, Call.Detect (utf8 "Bonjour world")] []
      (Call.SetLanguage (utf8 "fr")) (.foreign (utf8 "unsupported language"))
      (by decide) (by decide) (by decide)).2⟩

/-! ## Empty lines -/

theorem set_foldl (values : List GoString) :
    ∀ acc : StringSlice,
      values.foldl (fun s v => (StringSlice.Set s v).1) acc = acc ++ values := by
  induction values with
  | nil => intro acc; simp
  | cons v values ih =>
    intro acc
    rw [List.foldl_cons, ih]
    simp [StringSlice.Set]

theorem parseFlags_values (values : List GoString) :
    parseFlags false values
      = if values.length = 0 then
          .ok (none, some (.errorf (utf8 "must specify at least one language")))
        else .ok (some values, none) := by
  simp [parseFlags, set_foldl]

theorem resolveLanguages_ok (L : Lingua) :
    ∀ (names : List GoString) (acc : List Language),
      (∀ n ∈ names, MapStringToEnumLanguage L n ≠ none) →
      resolveLanguages L names acc = .ok (acc ++ names.filterMap (MapStringToEnumLanguage L)) ∧
      (names.filterMap (MapStringToEnumLanguage L)).length = names.length ∧
      (names.filterMap (MapStringToEnumLanguage L)).map some
        = names.map (MapStringToEnumLanguage L) := by
  intro names
  induction names with
  | nil => intro acc _; simp [resolveLanguages]
  | cons n names ih =>
    intro acc hall
    have hn := hall n (List.mem_cons_self n names)
    obtain ⟨l, hl⟩ := Option.ne_none_iff_exists'.mp hn
    obtain ⟨h1, h2, h3⟩ := ih (acc ++ [l]) (fun x hx => hall x (List.mem_cons_of_mem n hx))
    rw [resolveLanguages, hl]
    simp only
    rw [h1]
    refine ⟨by simp [List.filterMap_cons, hl], ?_, ?_⟩
    · simp [List.filterMap_cons, hl, h2]
    · simp [List.filterMap_cons, hl, h3]

theorem resolveLanguages_unknown (L : Lingua) :
    ∀ (names : List GoString) (acc : List Language),
      (∃ n ∈ names, MapStringToEnumLanguage L n = none) →
      ∃ msg, resolveLanguages L names acc = .error msg := by
  intro names
  induction names with
  | nil => intro acc hex; simp at hex
  | cons n names ih =>
    intro acc hex
    rw [resolveLanguages]
    cases hl : MapStringToEnumLanguage L n with
    | none => exact ⟨_, rfl⟩
    | some l =>
      simp only
      apply ih
      obtain ⟨x, hx, hxn⟩ := hex
      rcases List.mem_cons.mp hx with rfl | hx2
      · rw [hl] at hxn; simp at hxn
      · exact ⟨x, hx2, hxn⟩

/-- What `startup` computes without `-list-languages`, in terms of the names
obtained by joining the flag values with commas and splitting at the commas. -/
theorem startup_eq (L : Lingua) (values : List GoString) :
    (2 ≤ (Split (Join values comma) comma).length ∧
      (∀ n ∈ Split (Join values comma) comma, MapStringToEnumLanguage L n ≠ none) →
        startup L false values
          = .ok ((Split (Join values comma) comma).filterMap (MapStringToEnumLanguage L))) ∧
    (¬ (2 ≤ (Split (Join values comma) comma).length ∧
      (∀ n ∈ Split (Join values comma) comma, MapStringToEnumLanguage L n ≠ none)) →
        ∃ msg, startup L false values = .error (.fatal msg)) := by
  constructor
  · rintro ⟨hlen, hall⟩
    have hne : values.length ≠ 0 := by
      intro h0
      have : values = [] := List.length_eq_zero.mp h0
      subst this
      simp [Join, Split] at hlen
    obtain ⟨h1, h2, _⟩ := resolveLanguages_ok L _ [] hall
    simp only [startup, parseFlags_values, if_neg hne, Option.getD_some, StringSlice.String]
    rw [h1]
    simp only [List.nil_append]
    rw [if_neg (by rw [h2]; omega)]
  · intro hnot
    by_cases h0 : values.length = 0
    · simp only [startup, parseFlags_values, if_pos h0]
      exact ⟨_, rfl⟩
    · simp only [startup, parseFlags_values, if_neg h0, Option.getD_some, StringSlice.String]
      by_cases hall : ∀ n ∈ Split (Join values comma) comma, MapStringToEnumLanguage L n ≠ none
      · obtain ⟨h1, h2, _⟩ := resolveLanguages_ok L _ [] hall
        rw [h1]
        simp only [List.nil_append]
        have hlt : ((Split (Join values comma) comma).filterMap
            (MapStringToEnumLanguage L)).length < 2 := by
          rw [h2]
          by_contra hge
          exact hnot ⟨by omega, hall⟩
        rw [if_pos hlt]
        exact ⟨_, rfl⟩
      · have hex : ∃ n ∈ Split (Join values comma) comma, MapStringToEnumLanguage L n = none := by
          by_contra hno
          apply hall
          intro n hn hnone
          exact hno ⟨n, hn, hnone⟩
        obtain ⟨msg, hmsg⟩ := resolveLanguages_unknown L _ [] hex
        rw [hmsg]
        exact ⟨_, rfl⟩

/-- C8, as stated, fails: the list `English,English` names one language twice
and no other, yet `main` accepts it (two entries resolve) and goes on to open
the session and run the pipeline. -/
theorem duplicate_language_accepted :
    startup linguaStub false [utf8 "English,English"] = .ok [1, 1] ∧
    (List.dedup ([1, 1] : List Language)).length = 1 ∧
    main linguaStub speechdOk false [utf8 "English,English"] [] none
      = ⟨[Call.Open, Call.SetClientName clientName clientName clientName,
          Call.SetOutputModule (utf8 "espeak-ng"), Call.SetEventNotifications true, Call.Close],
        .returned⟩ :=
  ⟨rfl, by decide, by decide⟩

/-- C8, amended. Startup succeeds only if at least two entries of the list
resolve, entries being counted with repetition: the languages handed to the
detector are the images of the names, one per name and in order, so a list
that names the same language twice passes the check. -/
theorem startup_counts_entries (L : Lingua) (values : List GoString) (langs : List Language)
    (hs : startup L false values = .ok langs) :
    2 ≤ langs.length ∧
    langs.length = (Split (Join values comma) comma).length ∧
    langs.map some = (Split (Join values comma) comma).map (MapStringToEnumLanguage L) := by
  obtain ⟨hyes, hno⟩ := startup_eq L values
  by_cases hc : 2 ≤ (Split (Join values comma) comma).length ∧
      ∀ n ∈ Split (Join values comma) comma, MapStringToEnumLanguage L n ≠ none
  · have heq := hyes hc
    rw [hs] at heq
    injection heq with heq
    obtain ⟨_, h2, h3⟩ := resolveLanguages_ok L _ [] hc.2
    subst heq
    exact ⟨by rw [h2]; exact hc.1, h2, h3⟩
  · obtain ⟨msg, hmsg⟩ := hno hc
    rw [hmsg] at hs
    cases hs

/-- Witness of the amended C8: the list `English,English`. -/
theorem startup_counts_entries_witness :
    2 ≤ ([1, 1] : List Language).length ∧
    ([1, 1] : List Language).length = (Split (Join [utf8 "English,English"] comma) comma).length ∧
    ([1, 1] : List Language).map some
      = (Split (Join [utf8 "English,English"] comma) comma).map
          (MapStringToEnumLanguage linguaStub) :=
  startup_counts_entries linguaStub [utf8 "English,English"] [1, 1] rfl

/-! ## Teardown -/

theorem closeCalls_append (a b : Trace) : closeCalls (a ++ b) = closeCalls a + closeCalls b := by
  simp [closeCalls]

theorem speakSpans_closeCalls (L : Lingua) (B : Speechd) (text : GoString) :
    ∀ (rs : List DetectionResult) (h : Trace),
      closeCalls (speakSpans L B text rs h).2 = closeCalls h := by
  intro rs
  induction rs with
  | nil => intro h; simp [speakSpans]
  | cons r rs ih =>
    intro h
    rw [speakSpans]
    cases slice text r.StartIndex r.EndIndex with
    | none => rfl
    | some subset =>
      simp only
      cases B h (.SetLanguage (L.IsoCode639_1 r.Language)) with
      | some err => simp [closeCalls]
      | none =>
        simp only
        cases B (h ++ [.SetLanguage (L.IsoCode639_1 r.Language)]) (.Speak subset) with
        | some err => simp [closeCalls]
        | none =>
          simp only
          rw [ih]
          simp [closeCalls]

theorem scanLoop_closeCalls (L : Lingua) (B : Speechd) (detector : LanguageDetector) :
    ∀ (input : Reader) (h : Trace),
      closeCalls (scanLoop L B detector input h).2 = closeCalls h := by
  intro input
  induction input with
  | nil => intro h; simp [scanLoop]
  | cons ev rest ih =>
    intro h
    cases ev with
    | fail err => simp [scanLoop]
    | token text =>
      have hsp := speakSpans_closeCalls L B text (detector text) (h ++ [.Detect text])
      rw [scanLoop]
      cases hf : speakSpans L B text (detector text) (h ++ [.Detect text]) with
      | mk fl h1 =>
        rw [hf] at hsp
        simp only at hsp
        have hd : closeCalls (h ++ [Call.Detect text]) = closeCalls h := by simp [closeCalls]
        cases fl with
        | done => simp only; rw [ih, hsp, hd]
        | ret err => simp only; rw [hsp, hd]
        | panic => simp only; rw [hsp, hd]

/-- The pipeline itself never closes the session. -/
theorem scanAndSpeak_closeCalls (L : Lingua) (B : Speechd) (detector : LanguageDetector)
    (input : Reader) (h : Trace) :
    closeCalls (scanAndSpeak L B input detector h).2 = closeCalls h := by
  rw [scanAndSpeak]
  cases B h (.SetEventNotifications true) with
  | some err => simp [closeCalls]
  | none =>
    simp only
    rw [scanLoop_closeCalls]
    simp [closeCalls]

/-- The number of `Close` calls of a run that no signal interrupts, by the way
`scanAndSpeak` ends: one when it returns nil, none when it returns an error
(the process exits through `log.Fatal`), two when it panics. -/
theorem guardedRun_closeCalls (L : Lingua) (B : Speechd) (input : Reader)
    (detector : LanguageDetector) (h : Trace) :
    (∀ err, (scanAndSpeak L B input detector h).1 = .returned (some err) →
      closeCalls (guardedRun L B input detector none h).trace = closeCalls h ∧
      (guardedRun L B input detector none h).ending = .fatal err.Error) ∧
    ((scanAndSpeak L B input detector h).1 = .returned none →
      closeCalls (guardedRun L B input detector none h).trace = closeCalls h + 1 ∧
      (guardedRun L B input detector none h).ending = .returned) ∧
    ((scanAndSpeak L B input detector h).1 = .panicked →
      closeCalls (guardedRun L B input detector none h).trace = closeCalls h + 2 ∧
      (guardedRun L B input detector none h).ending = .returned) := by
  have hc := scanAndSpeak_closeCalls L B detector input h
  refine ⟨fun err he => ?_, fun he => ?_, fun he => ?_⟩
  · simp only [guardedRun, he, unwind]
    exact ⟨hc, trivial⟩
  · simp only [guardedRun, he, unwind]
    refine ⟨?_, trivial⟩
    rw [closeCalls_append, hc]
    simp [closeCalls]
  · simp only [guardedRun, he, unwind]
    refine ⟨?_, trivial⟩
    rw [closeCalls_append, hc]
    simp [closeCalls]

/-- The number of `Close` calls of a run that a termination signal interrupts
after `n` calls of the pipeline: one, made by the signal goroutine, and the
process exits with status 0. -/
theorem guardedRun_closeCalls_signal (L : Lingua) (B : Speechd) (input : Reader)
    (detector : LanguageDetector) (h : Trace) (n : Nat)
    (hn : n < ((scanAndSpeak L B input detector h).2.drop h.length).length) :
    closeCalls (guardedRun L B input detector (some n) h).trace = closeCalls h + 1 ∧
    (guardedRun L B input detector (some n) h).ending = .exit 0 := by
  have hc := scanAndSpeak_closeCalls L B detector input h
  obtain ⟨t, ht, _⟩ := scanAndSpeak_stops L B detector input h
  have hdrop : (scanAndSpeak L B input detector h).2.drop h.length = t := by
    rw [ht]; simp
  have ht0 : closeCalls t = 0 := by
    rw [ht, closeCalls_append] at hc
    omega
  have htake : closeCalls (t.take n) = 0 := by
    have hle : closeCalls (t.take n) ≤ closeCalls t :=
      List.Sublist.count_le (List.take_sublist n t) Call.Close
    omega
  rw [hdrop] at hn
  simp only [guardedRun, hdrop, if_pos hn]
  refine ⟨?_, trivial⟩
  rw [closeCalls_append, closeCalls_append, htake]
  simp [closeCalls]

/-- C1 at its failing input. With `-use-languages English,French` and the input
line `Bonjour world`: when the Speech Dispatcher rejects `SetLanguage`,
`scanAndSpeak` returns the error, `main` exits through `log.Fatal`, and `Close`
is never called; the same holds when the scanner reports a read failure.  On
the two other terminations `Close` is called exactly once: at the end of the
input, and when a termination signal arrives after three calls of the pipeline. -/
theorem close_skipped_on_pipeline_error :
    (closeCalls (main linguaStub speechdRejecting false [utf8 "English,French"]
        [.token (utf8 "Bonjour world")] none).trace = 0 ∧
      (main linguaStub speechdRejecting false [utf8 "English,French"]
        [.token (utf8 "Bonjour world")] none).ending = .fatal (utf8 "unsupported language")) ∧
    (closeCalls (main linguaStub speechdOk false [utf8 "English,French"]
        [.token (utf8 "Bonjour world"), .fail (.foreign (utf8 "EIO"))] none).trace = 0 ∧
      (main linguaStub speechdOk false [utf8 "English,French"]
        [.token (utf8 "Bonjour world"), .fail (.foreign (utf8 "EIO"))] none).ending
        = .fatal (utf8 "error reading stdin: EIO")) ∧
    (closeCalls (main linguaStub speechdOk false [utf8 "English,French"]
        [.token (utf8 "Bonjour world")] none).trace = 1 ∧
      (main linguaStub speechdOk false [utf8 "English,French"]
        [.token (utf8 "Bonjour world")] none).ending = .returned) ∧
    (closeCalls (main linguaStub speechdOk false [utf8 "English,French"]
        [.token (utf8 "Bonjour world")] (some 3)).trace = 1 ∧
      (main linguaStub speechdOk false [utf8 "English,French"]
        [.token (utf8 "Bonjour world")] (some 3)).ending = .exit 0) := by
  decide

end SpeechClient
